import Mathlib

/-!
Shallow embedding of the command dispatch and session engine of
rust-forth-interactive-compiler (src/main.rs).

The Forth compiler/interpreter engine (crate rust_forth_compiler), the file
system, and the line-reading service (rustyline) are external collaborators:
they are modelled as parameters (an environment record and an explicit stream
of line-reading events), while everything with control flow in src/main.rs —
the unified error type, the command descriptors and registry, the dispatcher,
the session loop, and the interactive capture sub-session — is embedded
faithfully from the source.
-/

set_option autoImplicit false

namespace ForthInteractive

/-- Modelled from the spec: the interpreter engine's failure type
(rust_forth_compiler::ForthError) is external; it is modelled as opaque
text so that it can be wrapped losslessly. -/
abbrev ForthError := String

/-- Modelled from the spec: a file or line-reading failure (std::io::Error)
is external; modelled as opaque text. -/
abbrev IOError := String

/-- Modelled from the spec: one compiled instruction unit of the interpreter
engine; the representation is implementation-defined, modelled as opaque
text. -/
abbrev Opcode := String

/-- The kind of a std::num::ParseIntError, as produced by str::parse for i64:
empty input, a non-digit character, or overflow past the i64 range. -/
inductive IntErrorKind where
  | empty
  | invalidDigit
  | posOverflow
  | negOverflow
  deriving DecidableEq, Repr

/-- std::num::ParseIntError, carrying its kind. -/
structure ParseIntError where
  kind : IntErrorKind
  deriving DecidableEq, Repr

/-- The unified error type of src/main.rs: ForthInteractiveError.
Each variant wraps the original collaborator failure losslessly,
mirroring the three From conversions. -/
inductive ForthInteractiveError where
  | UnknownError : ForthInteractiveError
  | ForthError : ForthError → ForthInteractiveError
  | IOError : IOError → ForthInteractiveError
  | ParseIntError : ParseIntError → ForthInteractiveError
  deriving DecidableEq, Repr

/-- CommandHandled, the success payload of a command action. -/
inductive CommandHandled where
  | Handled
  | NotHandled
  deriving DecidableEq, Repr

/-- GasLimit of the interpreter engine: a bounded step budget. -/
inductive GasLimit where
  | Unlimited
  | Limited : Nat → GasLimit
  deriving DecidableEq, Repr

/-- The observable Session State: the interpreter engine instance
(ForthCompiler), restricted to the fields src/main.rs reads or writes
directly (fc.sm.st.number_stack and fc.sm.st.opcodes); all other engine
internals are behind the external execute entry point. -/
structure ForthCompiler where
  number_stack : List Int
  opcodes : List Opcode
  deriving DecidableEq, Repr

/-- i64::MIN. -/
def i64Min : Int := -(2 ^ 63)

/-- i64::MAX. -/
def i64Max : Int := 2 ^ 63 - 1

/-- The digit-accumulation loop of str::parse for i64: each character must
be an ASCII digit, and the accumulator must stay inside the i64 range after
every step, else the sign-appropriate overflow error is produced. -/
def digitsToI64 (neg : Bool) : List Char → Int → Except ParseIntError Int
  | [], acc => .ok acc
  | c :: cs, acc =>
    if c.isDigit then
      let d : Int := Int.ofNat (c.toNat - Char.toNat '0')
      let acc' := if neg then acc * 10 - d else acc * 10 + d
      if acc' < i64Min then .error ⟨IntErrorKind.negOverflow⟩
      else if i64Max < acc' then .error ⟨IntErrorKind.posOverflow⟩
      else digitsToI64 neg cs acc'
    else .error ⟨IntErrorKind.invalidDigit⟩

/-- str::parse for a 64-bit signed integer: optional single leading sign,
then one or more ASCII digits, range-checked against i64. -/
def parseI64 (s : String) : Except ParseIntError Int :=
  match s.data with
  | [] => .error ⟨IntErrorKind.empty⟩
  | c :: cs =>
    if c = '-' then
      match cs with
      | [] => .error ⟨IntErrorKind.invalidDigit⟩
      | _ => digitsToI64 true cs 0
    else if c = '+' then
      match cs with
      | [] => .error ⟨IntErrorKind.invalidDigit⟩
      | _ => digitsToI64 false cs 0
    else digitsToI64 false (c :: cs) 0

/-- The character scan behind split_whitespace, with the token built so
far (reversed) as accumulator: whitespace ends the current token,
consecutive whitespace produces no empty tokens. -/
def tokenizeChars : List Char → List Char → List String
  | [], acc => if acc.isEmpty then [] else [⟨acc.reverse⟩]
  | c :: cs, acc =>
    if c.isWhitespace then
      if acc.isEmpty then tokenizeChars cs []
      else ⟨acc.reverse⟩ :: tokenizeChars cs []
    else tokenizeChars cs (c :: acc)

/-- Rust split_whitespace: whitespace-separated tokens, empties discarded. -/
def splitWhitespace (s : String) : List String :=
  tokenizeChars s.data []

/-- One event produced by the line-reading collaborator (rustyline):
a read line, an interrupt signal (CTRL-C), an end-of-input signal (CTRL-D),
or any other reading error. -/
inductive ReadEvent where
  | line : String → ReadEvent
  | interrupted
  | eof
  | readErr : String → ReadEvent
  deriving DecidableEq, Repr

/-- The environment of external collaborators: the file system read by the
load command, and the interpreter engine's execute entry point
(ForthCompiler::execute_string), which may mutate the engine state even on
failure. -/
structure Env where
  fs : String → Except IOError String
  exec : String → GasLimit → ForthCompiler → ForthCompiler × Except ForthError Unit

/-- What one command action produces: the updated Session State, the
line-reading events not consumed (only the interactive command consumes
events), the lines it printed, how many times the capture sub-session's
history store was persisted during the action, and the action's result. -/
structure ActionResult where
  fc : ForthCompiler
  rest : List ReadEvent
  out : List String
  innerSaves : Nat
  res : Except ForthInteractiveError CommandHandled

/-- CommandHandler: an immutable command descriptor — identifier, usage
text, help text, and the action closure bound at registration time. -/
structure CommandHandler where
  command_id : String
  usage_text : String
  help_text : String
  to_run : String → List String → ForthCompiler → List ReadEvent → ActionResult

/-- HandleCommand::handle_command for CommandHandler: if the incoming
command equals this descriptor's id, run the bound action (passing the
descriptor's own id and the full parameter sequence); otherwise report
NotHandled without touching anything. -/
def handle_command (h : CommandHandler) (command_id : String)
    (parameters : List String) (fc : ForthCompiler) (evs : List ReadEvent) :
    ActionResult :=
  if command_id = h.command_id then
    h.to_run h.command_id parameters fc evs
  else
    ⟨fc, evs, [], 0, .ok CommandHandled.NotHandled⟩

/-- Debug rendering of the unified error, as printed by the dispatcher. -/
def errDebug : ForthInteractiveError → String
  | .UnknownError => "UnknownError"
  | .ForthError e => "ForthError(" ++ e ++ ")"
  | .IOError e => "IOError(" ++ e ++ ")"
  | .ParseIntError e =>
    match e.kind with
    | .empty => "ParseIntError { kind: Empty }"
    | .invalidDigit => "ParseIntError { kind: InvalidDigit }"
    | .posOverflow => "ParseIntError { kind: PosOverflow }"
    | .negOverflow => "ParseIntError { kind: NegOverflow }"

/-- The five lines the session loop prints when a command action fails:
two blank lines, the converted unified error, two blank lines. -/
def errBlock (e : ForthInteractiveError) : List String :=
  ["", "", "Error executing command: " ++ errDebug e, "", ""]

/-- What one full dispatch over the registry produces, together with a
trace recording, for every registered descriptor in order, whether its id
matched the leading token (so its action was invoked) and the result its
handle_command returned. The trace is an observation added for
specification purposes only; the other fields mirror the source loop. -/
structure DispatchResult where
  fc : ForthCompiler
  rest : List ReadEvent
  out : List String
  innerSaves : Nat
  handled : Bool
  trace : List (Bool × Except ForthInteractiveError CommandHandled)

/-- The dispatcher loop of main (src/main.rs lines 222–237): try every
registered handler in order; a Handled result sets the accumulator, a
NotHandled result leaves it, and a failure is converted to the unified
error and printed, never aborting the iteration. -/
def dispatchGo (command : String) (parameters : List String) :
    List CommandHandler → ForthCompiler → List ReadEvent → Bool →
    DispatchResult
  | [], fc, evs, handled => ⟨fc, evs, [], 0, handled, []⟩
  | h :: hs, fc, evs, handled =>
    let r := handle_command h command parameters fc evs
    let handled' :=
      match r.res with
      | .ok CommandHandled.Handled => true
      | _ => handled
    let errOut :=
      match r.res with
      | .error err => errBlock err
      | _ => ([] : List String)
    let t := dispatchGo command parameters hs r.fc r.rest handled'
    ⟨t.fc, t.rest, r.out ++ errOut ++ t.out, r.innerSaves + t.innerSaves,
      t.handled, (decide (command = h.command_id), r.res) :: t.trace⟩

/-- What one run of the interactive capture sub-session produces: the
accumulated source text, the sub-session's recorded history, the events it
did not consume, whether its history store was persisted at the end, and
whether the loop actually reached a terminator (a finite model of the
blocking read: an exhausted event stream means the sub-session is still
blocked, so nothing after the loop has happened). -/
structure CaptureResult where
  text : String
  history : List String
  rest : List ReadEvent
  savedInner : Bool
  completed : Bool

/-- enter_interactive_text (src/main.rs lines 270–304): read lines with the
secondary prompt, appending each plus exactly one line terminator to the
accumulator and recording it to the sub-session's own history, until an
interrupt, end-of-input, or other reading error breaks the loop; then the
sub-session's history store is persisted and the accumulated text returned.
The accumulator and history, locals in the source, are explicit recursion
arguments here. -/
def enter_interactive_text : List ReadEvent → String → List String →
    CaptureResult
  | [], acc, hist => ⟨acc, hist, [], false, false⟩
  | ReadEvent.line s :: rest, acc, hist =>
    enter_interactive_text rest (acc ++ s ++ "\n") (hist ++ [s])
  | ReadEvent.interrupted :: rest, acc, hist => ⟨acc, hist, rest, true, true⟩
  | ReadEvent.eof :: rest, acc, hist => ⟨acc, hist, rest, true, true⟩
  | ReadEvent.readErr _ :: rest, acc, hist => ⟨acc, hist, rest, true, true⟩

/-- Convert the engine execute result into the command-action result, as
the question-mark operator plus Ok(CommandHandled::Handled) does. -/
def execRes : Except ForthError Unit → Except ForthInteractiveError CommandHandled
  | .ok _ => .ok CommandHandled.Handled
  | .error e => .error (ForthInteractiveError.ForthError e)

/-- The recursion inside the action of command l: for each parameter, read
the named file's full contents and execute them against the engine under a
step budget of 100; a file-read or execute failure stops the loop with the
converted error, keeping the effect of the files already executed. -/
def lGo (env : Env) : List String → ForthCompiler → List ReadEvent →
    ActionResult
  | [], fc, evs => ⟨fc, evs, [], 0, .ok CommandHandled.Handled⟩
  | n :: rest, fc, evs =>
    match env.fs n with
    | .error e => ⟨fc, evs, [], 0, .error (ForthInteractiveError.IOError e)⟩
    | .ok startup =>
      let p := env.exec startup (GasLimit.Limited 100) fc
      match p.2 with
      | .error e => ⟨p.1, evs, [], 0, .error (ForthInteractiveError.ForthError e)⟩
      | .ok _ => lGo env rest p.1 evs

/-- The action of command l: Load Forth file. -/
def lRun (env : Env) : String → List String → ForthCompiler →
    List ReadEvent → ActionResult :=
  fun _command_id params fc evs => lGo env params fc evs

/-- The action of command n: print the number stack. -/
def nRun : String → List String → ForthCompiler → List ReadEvent →
    ActionResult :=
  fun _command_id _params fc evs =>
    ⟨fc, evs, ["Number Stack " ++ toString fc.number_stack], 0,
      .ok CommandHandled.Handled⟩

/-- The recursion inside the action of command p: parse each parameter as
an i64 and push it onto the number stack, in the given order; a parse
failure stops the loop with the converted error, keeping the pushes already
done. -/
def pGo : List String → ForthCompiler →
    ForthCompiler × Except ForthInteractiveError CommandHandled
  | [], fc => (fc, .ok CommandHandled.Handled)
  | n :: rest, fc =>
    match parseI64 n with
    | .error e => (fc, .error (ForthInteractiveError.ParseIntError e))
    | .ok v => pGo rest { fc with number_stack := fc.number_stack ++ [v] }

/-- The action of command p: push numbers on the stack. -/
def pRun : String → List String → ForthCompiler → List ReadEvent →
    ActionResult :=
  fun _command_id params fc evs =>
    let p := pGo params fc
    ⟨p.1, evs, [], 0, p.2⟩

/-- The action of command i: run the interactive capture sub-session, then
execute the captured text against the engine under a step budget of 100. -/
def iRun (env : Env) : String → List String → ForthCompiler →
    List ReadEvent → ActionResult :=
  fun _command_id _params fc evs =>
    let cap := enter_interactive_text evs "" []
    let p := env.exec cap.text (GasLimit.Limited 100) fc
    ⟨p.1, cap.rest, [], if cap.savedInner then 1 else 0, execRes p.2⟩

/-- The action of command list_words: currently a no-op placeholder. -/
def listWordsRun : String → List String → ForthCompiler → List ReadEvent →
    ActionResult :=
  fun _command_id _params fc evs => ⟨fc, evs, [], 0, .ok CommandHandled.Handled⟩

/-- The action of command list_compiled_opcodes: print the engine's
compiled opcode sequence. -/
def listCompiledOpcodesRun : String → List String → ForthCompiler →
    List ReadEvent → ActionResult :=
  fun _command_id _params fc evs =>
    ⟨fc, evs, ["Compiled Opcodes " ++ toString fc.opcodes], 0,
      .ok CommandHandled.Handled⟩

/-- The action of command clear_number_stack: truncate the number stack to
length zero. -/
def clearNumberStackRun : String → List String → ForthCompiler →
    List ReadEvent → ActionResult :=
  fun _command_id _params fc evs =>
    ⟨{ fc with number_stack := [] }, evs, [], 0, .ok CommandHandled.Handled⟩

/-- The command registry built at startup (src/main.rs lines 117–198), in
registration order. -/
def command_handlers (env : Env) : List CommandHandler :=
  [⟨"l", "file1.fs [file2.fs]", "Load Forth file", lRun env⟩,
   ⟨"n", "No Parameters", "Print number stack", nRun⟩,
   ⟨"p", "n1 [n2]", "Push numbers on stack", pRun⟩,
   ⟨"i", "Enter interactive Forth text", "Enter interactive Forth text",
     iRun env⟩,
   ⟨"list_words", "No parameters", "List OpCodes that are compiled into memory",
     listWordsRun⟩,
   ⟨"list_compiled_opcodes", "No parameters",
     "Show the opcodes that are compiled into memory", listCompiledOpcodesRun⟩,
   ⟨"clear_number_stack", "No parameters",
     "Remove all numbers from number stack", clearNumberStackRun⟩]

/-- The fallback help listing: every descriptor's help, id and usage, in
registration order. -/
def helpTable (hs : List CommandHandler) : List String :=
  "Help text:" ::
    hs.map fun h =>
      "    Help: " ++ h.help_text ++ " Command: " ++ h.command_id ++ " " ++
        h.usage_text

/-- Processing of one read line by the session loop (the Ok(line) branch,
src/main.rs lines 207–249), after the line has been recorded to history:
echo the line, tokenize it; zero tokens is a no-op; otherwise dispatch the
leading token with the remaining tokens as parameters, and if no handler
reported Handled, print the full help table. Returns the printed lines, the
updated Session State, the unconsumed events, and the number of capture
sub-session history persists. -/
def processLine (env : Env) (line : String) (fc : ForthCompiler)
    (evs : List ReadEvent) : List String × ForthCompiler × List ReadEvent × Nat :=
  let out0 := ["Line: " ++ line]
  match splitWhitespace line with
  | [] => (out0, fc, evs, 0)
  | command :: parameters =>
    let d := dispatchGo command parameters (command_handlers env) fc evs false
    let helpOut := if d.handled then [] else helpTable (command_handlers env)
    (out0 ++ d.out ++ helpOut, d.fc, d.rest, d.innerSaves)

/-- How the session loop exited: which collaborator signal broke it. -/
inductive ExitKind where
  | interrupted
  | eof
  | readErr
  deriving DecidableEq, Repr

/-- What a whole session run produces: the final Session State, everything
printed, the outer history as recorded, the number of capture sub-session
history persists, which signal (if any) ended the loop, whether the outer
history store was persisted after the loop, and whether the process ended
with success status. An exhausted event stream (exit none) models a session
still blocked on its read, so the after-loop steps have not happened. -/
structure SessionResult where
  fc : ForthCompiler
  out : List String
  history : List String
  innerSaves : Nat
  exit : Option ExitKind
  savedOuter : Bool
  success : Bool

/-- The session loop of main (src/main.rs lines 204–267): read a line,
record it to history, process it, repeat; an interrupt, end-of-input or
other reading error breaks the loop, after which the outer history store is
persisted and main returns success. Fuel bounds the recursion; with fuel
larger than the event stream it never runs out, since every iteration
consumes at least one event. -/
def sessionLoop (env : Env) : Nat → ForthCompiler → List String →
    List ReadEvent → SessionResult
  | 0, fc, hist, _ => ⟨fc, [], hist, 0, none, false, false⟩
  | _ + 1, fc, hist, [] => ⟨fc, [], hist, 0, none, false, false⟩
  | fuel + 1, fc, hist, e :: rest =>
    match e with
    | ReadEvent.line line =>
      let p := processLine env line fc rest
      let t := sessionLoop env fuel p.2.1 (hist ++ [line]) p.2.2.1
      ⟨t.fc, p.1 ++ t.out, t.history, p.2.2.2 + t.innerSaves, t.exit,
        t.savedOuter, t.success⟩
    | ReadEvent.interrupted =>
      ⟨fc, ["CTRL-C"], hist, 0, some ExitKind.interrupted, true, true⟩
    | ReadEvent.eof =>
      ⟨fc, ["CTRL-D"], hist, 0, some ExitKind.eof, true, true⟩
    | ReadEvent.readErr e =>
      ⟨fc, ["Error: " ++ e], hist, 0, some ExitKind.readErr, true, true⟩

/-- A whole session: the loop started on the given events with empty
history and enough fuel for the entire stream. -/
def sessionRun (env : Env) (fc : ForthCompiler) (evs : List ReadEvent) :
    SessionResult :=
  sessionLoop env (evs.length + 1) fc [] evs

/-- Specification-side helper: each line followed by exactly one line
terminator, concatenated; the empty sequence gives the empty string. -/
def joinNL : List String → String
  | [] => ""
  | s :: rest => s ++ "\n" ++ joinNL rest

/-- Specification-side helper: parse a whole parameter sequence as i64,
failing on the first parameter that does not parse. -/
def parseAllI64 : List String → Except ParseIntError (List Int)
  | [] => .ok []
  | s :: rest => do
    let v ← parseI64 s
    let vs ← parseAllI64 rest
    pure (v :: vs)

/-- Whether a handle_command result is a successful Handled report. -/
def isHandledRes : Except ForthInteractiveError CommandHandled → Bool
  | .ok CommandHandled.Handled => true
  | _ => false

/-- Whether a line-reading event breaks a reading loop. -/
def isTerminator : ReadEvent → Bool
  | ReadEvent.line _ => false
  | _ => true

/-- A concrete sample environment for witnesses: one known file, and an
engine whose execute records each executed source text as an opcode. -/
def sampleEnv : Env :=
  ⟨fun p => if p = "test.fs" then .ok "5 7 ADD" else .error "missing",
   fun s _ fc => ({ fc with opcodes := fc.opcodes ++ [s] }, .ok ())⟩

/-- A concrete sample Session State for witnesses. -/
def sampleFc : ForthCompiler := ⟨[], []⟩

/-- The clear_number_stack descriptor on its own, used to exhibit
duplicate-id registration. -/
def clearHandler : CommandHandler :=
  ⟨"clear_number_stack", "No parameters",
    "Remove all numbers from number stack", clearNumberStackRun⟩

/-- The p descriptor on its own, used to exhibit a failing action. -/
def pHandler : CommandHandler :=
  ⟨"p", "n1 [n2]", "Push numbers on stack", pRun⟩

/-- The capture sub-session on a stream of lines followed by a terminator:
it accumulates every line plus one terminator, records every line to its
history, stops at the terminator, and persists its store. -/
theorem enter_interactive_text_lines (ls : List String) (term : ReadEvent)
    (rest : List ReadEvent) (hterm : isTerminator term = true) :
    ∀ acc hist,
      enter_interactive_text (ls.map ReadEvent.line ++ term :: rest) acc hist =
        ⟨acc ++ joinNL ls, hist ++ ls, rest, true, true⟩ := by
  induction ls with
  | nil =>
    intro acc hist
    cases term with
    | line s => simp [isTerminator] at hterm
    | interrupted => simp [enter_interactive_text, joinNL]
    | eof => simp [enter_interactive_text, joinNL]
    | readErr e => simp [enter_interactive_text, joinNL]
  | cons s ls ih =>
    intro acc hist
    have h1 : enter_interactive_text
        ((s :: ls).map ReadEvent.line ++ term :: rest) acc hist =
        enter_interactive_text (ls.map ReadEvent.line ++ term :: rest)
          (acc ++ s ++ "\n") (hist ++ [s]) := rfl
    rw [h1, ih]
    simp [joinNL, String.append_assoc]

/-- The dispatcher over a concatenation of two registries first runs the
whole first part, then the whole second part on the state, events and
handled flag the first part left behind; outputs, capture persists and
traces concatenate. -/
theorem dispatchGo_append (c : String) (ps : List String)
    (l₁ l₂ : List CommandHandler) (fc : ForthCompiler) (evs : List ReadEvent)
    (handled : Bool) :
    dispatchGo c ps (l₁ ++ l₂) fc evs handled =
      let d₁ := dispatchGo c ps l₁ fc evs handled
      let d₂ := dispatchGo c ps l₂ d₁.fc d₁.rest d₁.handled
      ⟨d₂.fc, d₂.rest, d₁.out ++ d₂.out, d₁.innerSaves + d₂.innerSaves,
        d₂.handled, d₁.trace ++ d₂.trace⟩ := by
  induction l₁ generalizing fc evs handled with
  | nil => simp [dispatchGo]
  | cons h t ih => simp [dispatchGo, ih, List.append_assoc, Nat.add_assoc]

/-- The dispatcher's handled flag is the initial flag joined with whether
any recorded handle_command result reported Handled. -/
theorem dispatchGo_handled_eq (c : String) (ps : List String) :
    ∀ (hs : List CommandHandler) (fc : ForthCompiler) (evs : List ReadEvent)
      (h0 : Bool),
      (dispatchGo c ps hs fc evs h0).handled =
        (h0 || (dispatchGo c ps hs fc evs h0).trace.any fun p =>
          isHandledRes p.2) := by
  intro hs
  induction hs with
  | nil => intro fc evs h0; simp [dispatchGo]
  | cons h t ih =>
    intro fc evs h0
    simp only [dispatchGo, List.any_cons]
    rw [ih]
    cases hr : (handle_command h c ps fc evs).res with
    | ok v =>
      cases v <;>
        simp [hr, isHandledRes, Bool.or_assoc, Bool.or_comm, Bool.or_left_comm]
    | error e => simp [hr, isHandledRes]

/-- A trace entry of a descriptor whose id did not match records that the
action was not invoked and NotHandled was reported. -/
theorem dispatchGo_trace_unmatched (c : String) (ps : List String) :
    ∀ (hs : List CommandHandler) (fc : ForthCompiler) (evs : List ReadEvent)
      (h0 : Bool) (p : Bool × Except ForthInteractiveError CommandHandled),
      p ∈ (dispatchGo c ps hs fc evs h0).trace → p.1 = false →
      p.2 = .ok CommandHandled.NotHandled := by
  intro hs
  induction hs with
  | nil => intro fc evs h0 p hp; simp [dispatchGo] at hp
  | cons h t ih =>
    intro fc evs h0 p hp hfalse
    simp only [dispatchGo, List.mem_cons] at hp
    rcases hp with hp | hp
    · subst hp
      simp only at hfalse
      rw [decide_eq_false_iff_not] at hfalse
      simp [handle_command, hfalse]
    · exact ih _ _ _ p hp hfalse

/-- The session loop persists the outer history store and reports success
exactly when some collaborator signal broke the loop. -/
theorem sessionLoop_saved_eq_exit (env : Env) :
    ∀ (fuel : Nat) (fc : ForthCompiler) (hist : List String)
      (evs : List ReadEvent),
      (sessionLoop env fuel fc hist evs).savedOuter =
        (sessionLoop env fuel fc hist evs).exit.isSome ∧
      (sessionLoop env fuel fc hist evs).success =
        (sessionLoop env fuel fc hist evs).exit.isSome := by
  intro fuel
  induction fuel with
  | zero => intro fc hist evs; simp [sessionLoop]
  | succ n ih =>
    intro fc hist evs
    cases evs with
    | nil => simp [sessionLoop]
    | cons e rest =>
      cases e with
      | line s => simpa [sessionLoop] using ih _ _ _
      | interrupted => simp [sessionLoop]
      | eof => simp [sessionLoop]
      | readErr e => simp [sessionLoop]

/-- A completed capture sub-session has persisted its own history store. -/
theorem enter_interactive_text_completed_saved :
    ∀ (evs : List ReadEvent) (acc : String) (hist : List String),
      (enter_interactive_text evs acc hist).completed = true →
      (enter_interactive_text evs acc hist).savedInner = true := by
  intro evs
  induction evs with
  | nil => intro acc hist h; simp [enter_interactive_text] at h
  | cons e rest ih =>
    intro acc hist h
    cases e with
    | line s => exact ih _ _ (by simpa [enter_interactive_text] using h)
    | interrupted => simp [enter_interactive_text]
    | eof => simp [enter_interactive_text]
    | readErr e => simp [enter_interactive_text]

/-- The p recursion on a fully parsable sequence pushes all the values, in
order, onto the end of the number stack. -/
theorem pGo_all_ok :
    ∀ (ps : List String) (vs : List Int) (fc : ForthCompiler),
      parseAllI64 ps = .ok vs →
      pGo ps fc =
        ({ fc with number_stack := fc.number_stack ++ vs },
          .ok CommandHandled.Handled) := by
  intro ps
  induction ps with
  | nil =>
    intro vs fc h
    simp only [parseAllI64, Except.ok.injEq] at h
    subst h
    simp [pGo]
  | cons s rest ih =>
    intro vs fc h
    simp only [parseAllI64, bind, Except.bind] at h
    cases hv : parseI64 s with
    | error e => rw [hv] at h; simp at h
    | ok v =>
      rw [hv] at h
      cases hvs : parseAllI64 rest with
      | error e => rw [hvs] at h; simp at h
      | ok vs' =>
        rw [hvs] at h
        simp only [pure, Except.pure, Except.ok.injEq] at h
        subst h
        simp only [pGo, hv]
        rw [ih vs' _ hvs]
        simp

/-- The p recursion on a sequence whose first unparsable parameter is tok
keeps exactly the pushes of the parameters before tok and stops with the
converted parse error. -/
theorem pGo_partial :
    ∀ (good : List String) (vs : List Int) (fc : ForthCompiler)
      (tok : String) (e : ParseIntError) (rest : List String),
      parseAllI64 good = .ok vs → parseI64 tok = .error e →
      pGo (good ++ tok :: rest) fc =
        ({ fc with number_stack := fc.number_stack ++ vs },
          .error (ForthInteractiveError.ParseIntError e)) := by
  intro good
  induction good with
  | nil =>
    intro vs fc tok e rest hgood htok
    simp only [parseAllI64, Except.ok.injEq] at hgood
    subst hgood
    simp [pGo, htok]
  | cons s g ih =>
    intro vs fc tok e rest hgood htok
    simp only [parseAllI64, bind, Except.bind] at hgood
    cases hv : parseI64 s with
    | error e' => rw [hv] at hgood; simp at hgood
    | ok v =>
      rw [hv] at hgood
      cases hvs : parseAllI64 g with
      | error e' => rw [hvs] at hgood; simp at hgood
      | ok vs' =>
        rw [hvs] at hgood
        simp only [pure, Except.pure, Except.ok.injEq] at hgood
        subst hgood
        have hstep : pGo ((s :: g) ++ tok :: rest) fc =
            pGo (g ++ tok :: rest)
              { fc with number_stack := fc.number_stack ++ [v] } := by
          simp [pGo, hv]
        rw [hstep, ih vs' _ tok e rest hvs htok]
        simp

/-- C1: for every input line whose leading token equals the id of one or
more registered descriptors, the dispatcher invokes the action of every
such descriptor, in registration order, with the full parameter sequence
and the Session State — even when an earlier descriptor with the same id
(anywhere in the arbitrary prefix pre, dispatched first) already matched
and ran: the descriptor's bound action runs on exactly the state, event
stream and handled flag the prefix left behind, and dispatch then continues
over the suffix. -/
theorem dispatch_invokes_every_matching_descriptor
    (command : String) (ps : List String) (pre post : List CommandHandler)
    (d : CommandHandler) (fc : ForthCompiler) (evs : List ReadEvent)
    (handled : Bool) (hid : d.command_id = command) :
    dispatchGo command ps (pre ++ d :: post) fc evs handled =
      let d₁ := dispatchGo command ps pre fc evs handled
      let r := d.to_run d.command_id ps d₁.fc d₁.rest
      let handled₂ :=
        match r.res with
        | .ok CommandHandled.Handled => true
        | _ => d₁.handled
      let errOut :=
        match r.res with
        | .error err => errBlock err
        | _ => ([] : List String)
      let d₂ := dispatchGo command ps post r.fc r.rest handled₂
      ⟨d₂.fc, d₂.rest, d₁.out ++ (r.out ++ errOut ++ d₂.out),
        d₁.innerSaves + (r.innerSaves + d₂.innerSaves), d₂.handled,
        d₁.trace ++ ((true, r.res) :: d₂.trace)⟩ := by
  subst hid
  rw [dispatchGo_append]
  simp [dispatchGo, handle_command]

/-- C3: a failure returned by one matching descriptor's action is converted
to the unified error and printed as the five-line error block, the
iteration continues over the remaining registered descriptors from the
state the failing action left, the failing descriptor leaves the handled
flag exactly as it was before it ran, and the session loop's line branch
always proceeds to the remaining events — no command-action failure
terminates the dispatch iteration or the session. -/
theorem action_failure_is_printed_and_never_aborts
    (command : String) (ps : List String) (pre post : List CommandHandler)
    (d : CommandHandler) (fc : ForthCompiler) (evs : List ReadEvent)
    (handled : Bool) (e : ForthInteractiveError)
    (hid : d.command_id = command)
    (herr : (d.to_run d.command_id ps
        (dispatchGo command ps pre fc evs handled).fc
        (dispatchGo command ps pre fc evs handled).rest).res = .error e) :
    (dispatchGo command ps (pre ++ d :: post) fc evs handled =
      let d₁ := dispatchGo command ps pre fc evs handled
      let r := d.to_run d.command_id ps d₁.fc d₁.rest
      let d₂ := dispatchGo command ps post r.fc r.rest d₁.handled
      ⟨d₂.fc, d₂.rest, d₁.out ++ (r.out ++ errBlock e ++ d₂.out),
        d₁.innerSaves + (r.innerSaves + d₂.innerSaves), d₂.handled,
        d₁.trace ++ ((true, r.res) :: d₂.trace)⟩) ∧
    (∀ (env : Env) (fuel : Nat) (fc₀ : ForthCompiler) (hist : List String)
       (line : String) (evs₀ : List ReadEvent),
      (sessionLoop env (fuel + 1) fc₀ hist (ReadEvent.line line :: evs₀)).exit =
        (sessionLoop env fuel (processLine env line fc₀ evs₀).2.1
          (hist ++ [line]) (processLine env line fc₀ evs₀).2.2.1).exit) := by
  constructor
  · subst hid
    rw [dispatchGo_append]
    simp only [dispatchGo, handle_command, if_pos rfl]
    rw [herr]
    simp [herr]
  · intro env fuel fc₀ hist line evs₀
    simp [sessionLoop]

/-- C2: after dispatching one tokenized line, the handled flag is true
exactly when at least one invoked descriptor action (one whose id matched,
so its trace entry is marked invoked) reported Handled; and when the flag
is false — no id matched, or every matching action reported NotHandled or
failed — processing the line prints the full command table of every
registered descriptor, in registration order, after the dispatch output. -/
theorem handled_iff_invoked_action_handled
    (env : Env) (line command : String) (ps : List String)
    (fc : ForthCompiler) (evs : List ReadEvent)
    (hsplit : splitWhitespace line = command :: ps) :
    ((dispatchGo command ps (command_handlers env) fc evs false).handled = true ↔
      ∃ p ∈ (dispatchGo command ps (command_handlers env) fc evs false).trace,
        p.1 = true ∧ p.2 = Except.ok CommandHandled.Handled) ∧
    ((dispatchGo command ps (command_handlers env) fc evs false).handled = false →
      processLine env line fc evs =
        (("Line: " ++ line) ::
          ((dispatchGo command ps (command_handlers env) fc evs false).out ++
            helpTable (command_handlers env)),
         (dispatchGo command ps (command_handlers env) fc evs false).fc,
         (dispatchGo command ps (command_handlers env) fc evs false).rest,
         (dispatchGo command ps (command_handlers env) fc evs false).innerSaves)) := by
  constructor
  · rw [dispatchGo_handled_eq]
    simp only [Bool.false_or]
    rw [List.any_eq_true]
    constructor
    · rintro ⟨p, hp, hres⟩
      have hres' : p.2 = Except.ok CommandHandled.Handled := by
        cases h2 : p.2 with
        | ok v =>
          cases v with
          | Handled => rfl
          | NotHandled => rw [h2] at hres; simp [isHandledRes] at hres
        | error e => rw [h2] at hres; simp [isHandledRes] at hres
      refine ⟨p, hp, ?_, hres'⟩
      by_contra hfalse
      have hf : p.1 = false := by
        cases hb : p.1
        · rfl
        · exact absurd hb hfalse
      have := dispatchGo_trace_unmatched command ps (command_handlers env)
        fc evs false p hp hf
      rw [this] at hres'
      exact absurd hres' (by simp)
    · rintro ⟨p, hp, _, h2⟩
      exact ⟨p, hp, by simp [isHandledRes, h2]⟩
  · intro hfalse
    simp [processLine, hsplit, hfalse]

/-- C4: the action of the p command parses each parameter as a 64-bit
signed integer and pushes it onto the operand stack in left-to-right order;
if one parameter fails to parse, the command reports the converted
ParseFailure, everything before it has already been pushed, and nothing
from the failing parameter onward is processed. -/
theorem p_pushes_in_order_and_keeps_partial_effect (fc : ForthCompiler) :
    (∀ (ps : List String) (vs : List Int) (evs : List ReadEvent),
      parseAllI64 ps = .ok vs →
      pRun "p" ps fc evs =
        ⟨{ fc with number_stack := fc.number_stack ++ vs }, evs, [], 0,
          .ok CommandHandled.Handled⟩) ∧
    (∀ (good : List String) (vs : List Int) (tok : String)
       (e : ParseIntError) (rest : List String) (evs : List ReadEvent),
      parseAllI64 good = .ok vs → parseI64 tok = .error e →
      pRun "p" (good ++ tok :: rest) fc evs =
        ⟨{ fc with number_stack := fc.number_stack ++ vs }, evs, [], 0,
          .error (ForthInteractiveError.ParseIntError e)⟩) := by
  constructor
  · intro ps vs evs h
    simp [pRun, pGo_all_ok ps vs fc h]
  · intro good vs tok e rest evs hgood htok
    simp [pRun, pGo_partial good vs fc tok e rest hgood htok]

/-- C5: the interactive capture sub-session, given lines l1..ln followed by
an interrupt or end-of-input signal, returns each line followed by exactly
one line terminator, concatenated (the empty string for the empty
sequence), and the action of the i command forwards exactly that string —
empty or not — to the interpreter engine's execute entry point under the
bounded step budget. -/
theorem capture_returns_terminated_lines_and_forwards
    (ls : List String) (term : ReadEvent) (rest : List ReadEvent)
    (hterm : term = ReadEvent.interrupted ∨ term = ReadEvent.eof) :
    (enter_interactive_text (ls.map ReadEvent.line ++ term :: rest) "" [] =
      ⟨joinNL ls, ls, rest, true, true⟩) ∧
    (∀ (env : Env) (fc : ForthCompiler),
      iRun env "i" [] fc (ls.map ReadEvent.line ++ term :: rest) =
        ⟨(env.exec (joinNL ls) (GasLimit.Limited 100) fc).1, rest, [], 1,
          execRes (env.exec (joinNL ls) (GasLimit.Limited 100) fc).2⟩) := by
  have hterm' : isTerminator term = true := by
    rcases hterm with h | h <;> rw [h] <;> rfl
  have hcap := enter_interactive_text_lines ls term rest hterm' "" []
  rw [String.empty_append, List.nil_append] at hcap
  refine ⟨hcap, ?_⟩
  intro env fc
  simp [iRun, hcap]

/-- C7: executing the l command on a single file whose full contents are s
produces exactly the Session State of directly executing the string s
through the interpreter engine's execute entry point with the same bounded
step budget of 100, and reports the execute outcome converted to the
unified result. -/
theorem load_file_equals_direct_execute
    (env : Env) (path s : String) (fc : ForthCompiler)
    (evs : List ReadEvent) (hfs : env.fs path = .ok s) :
    lRun env "l" [path] fc evs =
      ⟨(env.exec s (GasLimit.Limited 100) fc).1, evs, [], 0,
        execRes (env.exec s (GasLimit.Limited 100) fc).2⟩ := by
  simp only [lRun, lGo, hfs]
  cases hr : (env.exec s (GasLimit.Limited 100) fc).2 with
  | ok u => simp [lGo, hr, execRes]
  | error e => simp [hr, execRes]

/-- C8: an input line whose leading token matches no registered command id
prints the full help table in the exact registration order fixed at
startup (l, n, p, i, list_words, list_compiled_opcodes,
clear_number_stack) and leaves the Session State and the event stream
unchanged by the dispatch. -/
theorem unrecognized_command_prints_help_and_preserves_state
    (env : Env) (line command : String) (ps : List String)
    (fc : ForthCompiler) (evs : List ReadEvent)
    (hsplit : splitWhitespace line = command :: ps)
    (h1 : command ≠ "l") (h2 : command ≠ "n") (h3 : command ≠ "p")
    (h4 : command ≠ "i") (h5 : command ≠ "list_words")
    (h6 : command ≠ "list_compiled_opcodes")
    (h7 : command ≠ "clear_number_stack") :
    processLine env line fc evs =
      (["Line: " ++ line,
        "Help text:",
        "    Help: Load Forth file Command: l file1.fs [file2.fs]",
        "    Help: Print number stack Command: n No Parameters",
        "    Help: Push numbers on stack Command: p n1 [n2]",
        "    Help: Enter interactive Forth text Command: i Enter interactive Forth text",
        "    Help: List OpCodes that are compiled into memory Command: list_words No parameters",
        "    Help: Show the opcodes that are compiled into memory Command: list_compiled_opcodes No parameters",
        "    Help: Remove all numbers from number stack Command: clear_number_stack No parameters"],
       fc, evs, 0) := by
  simp [processLine, hsplit, command_handlers, dispatchGo, handle_command,
    helpTable, h1, h2, h3, h4, h5, h6, h7]

/-- C9: an input line that tokenizes to zero tokens invokes no command
descriptor, leaves the Session State unchanged, and the session loop
immediately proceeds to the remaining events, only echoing the line. -/
theorem empty_line_is_a_noop
    (env : Env) (line : String) (fc : ForthCompiler) (hist : List String)
    (evs : List ReadEvent) (fuel : Nat)
    (hsplit : splitWhitespace line = []) :
    sessionLoop env (fuel + 1) fc hist (ReadEvent.line line :: evs) =
      ⟨(sessionLoop env fuel fc (hist ++ [line]) evs).fc,
        ("Line: " ++ line) :: (sessionLoop env fuel fc (hist ++ [line]) evs).out,
        (sessionLoop env fuel fc (hist ++ [line]) evs).history,
        (sessionLoop env fuel fc (hist ++ [line]) evs).innerSaves,
        (sessionLoop env fuel fc (hist ++ [line]) evs).exit,
        (sessionLoop env fuel fc (hist ++ [line]) evs).savedOuter,
        (sessionLoop env fuel fc (hist ++ [line]) evs).success⟩ := by
  simp [sessionLoop, processLine, hsplit]

/-- C10: invoking the p command or the l command with an empty parameter
sequence reports Handled without error and leaves the interpreter-engine
state (operand stack and compiled opcodes) unchanged. -/
theorem empty_parameters_report_handled_without_effect
    (env : Env) (fc : ForthCompiler) (evs : List ReadEvent) :
    pRun "p" [] fc evs = ⟨fc, evs, [], 0, .ok CommandHandled.Handled⟩ ∧
    lRun env "l" [] fc evs = ⟨fc, evs, [], 0, .ok CommandHandled.Handled⟩ :=
  ⟨rfl, rfl⟩

/-- C6 counterexample: a session consisting of a single end-of-input signal
terminates normally, yet zero capture sub-session history persists have
happened in the whole run — the capture sub-session's store is not
persisted at process end, contrary to the claim that both history stores
are persisted before the process ends. -/
theorem session_eof_run_never_persists_capture_store :
    (sessionRun sampleEnv sampleFc [ReadEvent.eof]).exit =
      some ExitKind.eof ∧
    (sessionRun sampleEnv sampleFc [ReadEvent.eof]).savedOuter = true ∧
    (sessionRun sampleEnv sampleFc [ReadEvent.eof]).success = true ∧
    (sessionRun sampleEnv sampleFc [ReadEvent.eof]).innerSaves = 0 :=
  ⟨rfl, rfl, rfl, rfl⟩

/-- C6 amended: when the session terminates normally via an interrupt or
end-of-input signal, the outer session's history store is persisted before
the process ends and the process ends with success status; the capture
sub-session's history store is persisted at the end of each capture
sub-session that completes (hence before the process ends), but not at
process end itself. -/
theorem normal_termination_persists_outer_store
    (env : Env) (fc : ForthCompiler) (evs : List ReadEvent) :
    (((sessionRun env fc evs).exit = some ExitKind.interrupted ∨
      (sessionRun env fc evs).exit = some ExitKind.eof) →
      (sessionRun env fc evs).savedOuter = true ∧
      (sessionRun env fc evs).success = true) ∧
    (∀ (evs₂ : List ReadEvent) (acc : String) (hist : List String),
      (enter_interactive_text evs₂ acc hist).completed = true →
      (enter_interactive_text evs₂ acc hist).savedInner = true) := by
  constructor
  · intro h
    have hs := sessionLoop_saved_eq_exit env (evs.length + 1) fc [] evs
    have hsome :
        (sessionLoop env (evs.length + 1) fc [] evs).exit.isSome = true := by
      rcases h with h | h <;>
        rw [show sessionRun env fc evs =
          sessionLoop env (evs.length + 1) fc [] evs from rfl] at h <;>
        simp [h]
    exact ⟨hs.1.trans hsome, hs.2.trans hsome⟩
  · exact enter_interactive_text_completed_saved

/-- C1 witness: two descriptors registered with the same id
clear_number_stack both execute when that id is dispatched. -/
theorem dispatch_invokes_every_matching_descriptor_witness :
    dispatchGo "clear_number_stack" []
        ([clearHandler] ++ clearHandler :: []) ⟨[5], []⟩ [] false =
      ⟨⟨[], []⟩, [], [], 0, true,
        [(true, .ok CommandHandled.Handled),
         (true, .ok CommandHandled.Handled)]⟩ :=
  (dispatch_invokes_every_matching_descriptor "clear_number_stack" []
    [clearHandler] [] clearHandler ⟨[5], []⟩ [] false rfl).trans rfl

/-- C2 witness: the line qqq 1 matches no descriptor, the handled flag is
false, and the full help table is printed. -/
theorem handled_iff_invoked_action_handled_witness :
    processLine sampleEnv "qqq 1" sampleFc [] =
      (["Line: qqq 1",
        "Help text:",
        "    Help: Load Forth file Command: l file1.fs [file2.fs]",
        "    Help: Print number stack Command: n No Parameters",
        "    Help: Push numbers on stack Command: p n1 [n2]",
        "    Help: Enter interactive Forth text Command: i Enter interactive Forth text",
        "    Help: List OpCodes that are compiled into memory Command: list_words No parameters",
        "    Help: Show the opcodes that are compiled into memory Command: list_compiled_opcodes No parameters",
        "    Help: Remove all numbers from number stack Command: clear_number_stack No parameters"],
       sampleFc, [], 0) :=
  ((handled_iff_invoked_action_handled sampleEnv "qqq 1" "qqq" ["1"]
      sampleFc [] rfl).2 rfl).trans rfl

/-- C3 witness: the p descriptor invoked on the unparsable parameter abc
fails; the failure is printed as the five-line error block and the
dispatch result reports not handled. -/
theorem action_failure_is_printed_and_never_aborts_witness :
    dispatchGo "p" ["abc"] ([] ++ pHandler :: []) sampleFc [] false =
      ⟨sampleFc, [],
        ["", "",
         "Error executing command: ParseIntError { kind: InvalidDigit }",
         "", ""], 0, false,
        [(true, .error (ForthInteractiveError.ParseIntError
          ⟨IntErrorKind.invalidDigit⟩))]⟩ :=
  ((action_failure_is_printed_and_never_aborts "p" ["abc"] [] [] pHandler
      sampleFc [] false
      (ForthInteractiveError.ParseIntError ⟨IntErrorKind.invalidDigit⟩)
      rfl rfl).1).trans rfl

/-- C4 witness: p 5 7 pushes 5 then 7; p 5 abc pushes 5 and stops with the
parse failure, processing nothing after abc. -/
theorem p_pushes_in_order_and_keeps_partial_effect_witness :
    pRun "p" ["5", "7"] ⟨[], []⟩ [] =
      ⟨⟨[5, 7], []⟩, [], [], 0, .ok CommandHandled.Handled⟩ ∧
    pRun "p" ["5", "abc"] ⟨[], []⟩ [] =
      ⟨⟨[5], []⟩, [], [], 0,
        .error (ForthInteractiveError.ParseIntError
          ⟨IntErrorKind.invalidDigit⟩)⟩ :=
  ⟨((p_pushes_in_order_and_keeps_partial_effect ⟨[], []⟩).1
      ["5", "7"] [5, 7] [] rfl).trans rfl,
   ((p_pushes_in_order_and_keeps_partial_effect ⟨[], []⟩).2
      ["5"] [5] "abc" ⟨IntErrorKind.invalidDigit⟩ [] [] rfl rfl).trans rfl⟩

/-- C5 witness: the capture sub-session given the lines 5 and 7 then
end-of-input returns the two newline-terminated lines, and the i command
forwards them — and forwards the empty string for an immediately
terminated sub-session. -/
theorem capture_returns_terminated_lines_and_forwards_witness :
    enter_interactive_text
        [ReadEvent.line "5", ReadEvent.line "7", ReadEvent.eof] "" [] =
      ⟨"5\n7\n", ["5", "7"], [], true, true⟩ ∧
    iRun sampleEnv "i" [] sampleFc
        [ReadEvent.line "5", ReadEvent.line "7", ReadEvent.eof] =
      ⟨⟨[], ["5\n7\n"]⟩, [], [], 1, .ok CommandHandled.Handled⟩ ∧
    iRun sampleEnv "i" [] sampleFc [ReadEvent.eof] =
      ⟨⟨[], [""]⟩, [], [], 1, .ok CommandHandled.Handled⟩ :=
  ⟨(capture_returns_terminated_lines_and_forwards ["5", "7"]
      ReadEvent.eof [] (Or.inr rfl)).1.trans rfl,
   ((capture_returns_terminated_lines_and_forwards ["5", "7"]
      ReadEvent.eof [] (Or.inr rfl)).2 sampleEnv sampleFc).trans rfl,
   ((capture_returns_terminated_lines_and_forwards []
      ReadEvent.eof [] (Or.inr rfl)).2 sampleEnv sampleFc).trans rfl⟩

/-- C6 witness: for the session consisting of one end-of-input signal, the
outer store is persisted, the process ends with success, and a capture
sub-session that completes on one end-of-input signal persists its own
store. -/
theorem normal_termination_persists_outer_store_witness :
    (sessionRun sampleEnv sampleFc [ReadEvent.eof]).savedOuter = true ∧
    (sessionRun sampleEnv sampleFc [ReadEvent.eof]).success = true ∧
    (enter_interactive_text [ReadEvent.eof] "" []).savedInner = true := by
  have h := normal_termination_persists_outer_store sampleEnv sampleFc
    [ReadEvent.eof]
  exact ⟨(h.1 (Or.inr rfl)).1, (h.1 (Or.inr rfl)).2,
    h.2 [ReadEvent.eof] "" [] rfl⟩

/-- C7 witness: loading test.fs, whose contents are 5 7 ADD, leaves the
sample engine in exactly the state of executing 5 7 ADD directly. -/
theorem load_file_equals_direct_execute_witness :
    lRun sampleEnv "l" ["test.fs"] sampleFc [] =
      ⟨⟨[], ["5 7 ADD"]⟩, [], [], 0, .ok CommandHandled.Handled⟩ :=
  (load_file_equals_direct_execute sampleEnv "test.fs" "5 7 ADD"
    sampleFc [] rfl).trans rfl

/-- C8 witness: the unrecognized line zzz prints the full help table in
registration order and changes nothing. -/
theorem unrecognized_command_prints_help_and_preserves_state_witness :
    processLine sampleEnv "zzz" sampleFc [] =
      (["Line: zzz",
        "Help text:",
        "    Help: Load Forth file Command: l file1.fs [file2.fs]",
        "    Help: Print number stack Command: n No Parameters",
        "    Help: Push numbers on stack Command: p n1 [n2]",
        "    Help: Enter interactive Forth text Command: i Enter interactive Forth text",
        "    Help: List OpCodes that are compiled into memory Command: list_words No parameters",
        "    Help: Show the opcodes that are compiled into memory Command: list_compiled_opcodes No parameters",
        "    Help: Remove all numbers from number stack Command: clear_number_stack No parameters"],
       sampleFc, [], 0) :=
  (unrecognized_command_prints_help_and_preserves_state sampleEnv "zzz"
    "zzz" [] sampleFc [] rfl (by decide) (by decide) (by decide) (by decide)
    (by decide) (by decide) (by decide)).trans rfl

/-- C9 witness: a whitespace-only line only echoes and the loop moves on
with nothing changed. -/
theorem empty_line_is_a_noop_witness :
    sessionLoop sampleEnv 1 sampleFc [] [ReadEvent.line "   "] =
      ⟨sampleFc, ["Line:    "], ["   "], 0, none, false, false⟩ :=
  (empty_line_is_a_noop sampleEnv "   " sampleFc [] [] 0 rfl).trans rfl

end ForthInteractive
